import Mathlib

/-!
# Verification of the problem-solver backend (backend_app.py)

A shallow embedding of `src/backend_app.py`: the username extractor, the four
platform fetchers and the aggregator endpoint, together with theorems settling
the specification claims.

Modelling conventions:
* Python strings are Lean `String`s; character-level work happens on `.data`.
* The regular expressions used by the source (`re.match` / `re.search` /
  `re.findall` on the fixed patterns appearing in the code) are implemented
  directly as scanners over `List Char`.  `\d` and `\s` are modelled at ASCII
  (the source relies on them only for ASCII page text).
* `urllib.parse.urlparse` is modelled after CPython's `urlsplit`/`urlparse`:
  removal of tab/CR/LF, scheme split, netloc split (including the
  `ValueError("Invalid IPv6 URL")` raised on a mismatched square bracket in
  the authority), fragment split, query split, and the params split.  The
  `ValueError` is represented with `Except.error`.
* Each fetcher's single network interaction is an explicit input (an
  `...Outcome` value): one constructor per distinct way the `aiohttp` call can
  end, matching the `try`/`except` arms of the source.  A fetcher that can let
  an exception escape (the `ValueError` from `urlparse` raised *outside* the
  fetcher's `try` block) returns `Except String PlatformResult`; fetchers that
  catch everything return `PlatformResult` directly.
-/

namespace BackendApp

/-! ## Character classes and low-level scanners -/

/-- ASCII decimal digit, the model of the regex class `\d`. -/
def isDigitC (c : Char) : Bool := '0' ≤ c && c ≤ '9'

/-- ASCII whitespace, the model of the regex class `\s`. -/
def isSpaceC (c : Char) : Bool :=
  c = ' ' || c = '\t' || c = '\n' || c = '\r' || c = '\x0b' || c = '\x0c'

/-- Numeric value of a digit run, the model of Python's `int` on a digit
string. -/
def digitsToNat (l : List Char) : Nat :=
  l.foldl (fun a c => a * 10 + (c.toNat - '0'.toNat)) 0

/-- Match a literal at the head of `s`; on success return the rest of `s`. -/
def dropLit (lit : List Char) (s : List Char) : Option (List Char) :=
  match lit, s with
  | [], s => some s
  | _ :: _, [] => none
  | p :: ps, c :: cs => if p = c then dropLit ps cs else none

/-- `(\d+)` at the current position: the maximal digit run, if non-empty. -/
def takeDigits (s : List Char) : Option Nat :=
  let ds := s.takeWhile isDigitC
  if ds.isEmpty then none else some (digitsToNat ds)

/-- `re.search` driver: try the position matcher `m` at every position,
left to right, and return the first success. -/
def scanFirst (m : List Char → Option α) : List Char → Option α
  | [] => m []
  | c :: rest =>
    match m (c :: rest) with
    | some x => some x
    | none => scanFirst m rest

/-- `needle in hay` on character lists (Python's substring test). -/
def containsSub (needle hay : List Char) : Bool :=
  match hay with
  | [] => needle.isEmpty
  | _ :: t => (dropLit needle hay).isSome || containsSub needle t

/-- The values of the maximal digit runs of `s`, in order: the model of
`[int(x) for x in re.findall(r'\d+', s)]`. -/
def digitRunLists : List Char → List (List Char)
  | [] => []
  | c :: rest =>
    let tailRuns := digitRunLists rest
    if isDigitC c then
      match rest with
      | d :: _ =>
        if isDigitC d then
          match tailRuns with
          | r :: rs => (c :: r) :: rs
          | [] => [[c]]
        else [c] :: tailRuns
      | [] => [[c]]
    else tailRuns

/-- Values of the maximal digit runs (`re.findall(r'\d+', ·)` then `int`). -/
def digitVals (s : List Char) : List Nat := (digitRunLists s).map digitsToNat

/-- `max(numbers) if numbers else None` over the digit runs of `s`. -/
def maxRun (s : List Char) : Option Nat :=
  match digitVals s with
  | [] => none
  | n :: ns => some (ns.foldl Nat.max n)

/-- `numbers[0] if numbers else None` over the digit runs of `s`. -/
def firstRun (s : List Char) : Option Nat := (digitVals s).head?

/-! ## The fixed regular expressions of the source -/

/-- `Total\s*Problems\s*Solved:\s*(\d+)` at the current position
(backend_app.py lines 164 and 183). -/
def matchTPSAt (s : List Char) : Option Nat := do
  let s ← dropLit "Total".data s
  let s := s.dropWhile isSpaceC
  let s ← dropLit "Problems".data s
  let s := s.dropWhile isSpaceC
  let s ← dropLit "Solved:".data s
  let s := s.dropWhile isSpaceC
  takeDigits s

/-- `re.search(r'Total\s*Problems\s*Solved:\s*(\d+)', ·)`, first capture. -/
def searchTPS (s : List Char) : Option Nat := scanFirst matchTPSAt s

/-- `Problem\s*Solved\s*(\d+)` at the current position
(backend_app.py lines 124 and 128). -/
def matchPSAt (s : List Char) : Option Nat := do
  let s ← dropLit "Problem".data s
  let s := s.dropWhile isSpaceC
  let s ← dropLit "Solved".data s
  let s := s.dropWhile isSpaceC
  takeDigits s

/-- `re.search(r'Problem\s*Solved\s*(\d+)', ·)`, first capture.  This also
models `re.findall(..)[0]` with the same pattern, which the source uses at
line 128: the first element of `findall` is the first match. -/
def searchPS (s : List Char) : Option Nat := scanFirst matchPSAt s

/-- `Problems\s*Solved[:,]?\s*(\d+)` at the current position
(backend_app.py line 188).  `[:,]?` is deterministic here because a digit can
never satisfy the optional class, so greedy consumption never needs
backtracking. -/
def matchPSLooseAt (s : List Char) : Option Nat := do
  let s ← dropLit "Problems".data s
  let s := s.dropWhile isSpaceC
  let s ← dropLit "Solved".data s
  let s :=
    match s with
    | ':' :: r => r
    | ',' :: r => r
    | r => r
  let s := s.dropWhile isSpaceC
  takeDigits s

/-- `re.search(r'Problems\s*Solved[:,]?\s*(\d+)', ·)`, first capture. -/
def searchPSLoose (s : List Char) : Option Nat := scanFirst matchPSLooseAt s

/-! ## `urllib.parse.urlparse(url).path` -/

/-- CPython removes tab, CR and LF from the URL before parsing
(`_UNSAFE_URL_BYTES_TO_REMOVE`). -/
def removeUnsafe (s : List Char) : List Char :=
  s.filter (fun c => !(c = '\t' || c = '\r' || c = '\n'))

/-- A character allowed in a URL scheme (`scheme_chars` in CPython). -/
def isSchemeChar (c : Char) : Bool :=
  c.isAlpha || c.isDigit || c = '+' || c = '-' || c = '.'

/-- Strip a leading `scheme:` when the prefix before the first `:` is a valid
scheme (first character an ASCII letter, all characters scheme characters). -/
def splitScheme (s : List Char) : List Char :=
  match List.findIdx? (· = ':') s with
  | none => s
  | some i =>
    if i != 0 && (match s with | c :: _ => c.isAlpha | [] => false)
        && (s.take i).all isSchemeChar
    then s.drop (i + 1) else s

/-- Strip a leading `//netloc`; the netloc extends to the first `/`, `?` or
`#`.  Raises `ValueError("Invalid IPv6 URL")` when exactly one of `[`, `]`
occurs in the netloc, as CPython's `urlsplit` does. -/
def splitNetloc (s : List Char) : Except String (List Char) :=
  match s with
  | '/' :: '/' :: rest =>
    let stop : Char → Bool := fun c => !(c = '/' || c = '?' || c = '#')
    let netloc := rest.takeWhile stop
    let remainder := rest.dropWhile stop
    if (netloc.contains '[' && !netloc.contains ']')
        || (netloc.contains ']' && !netloc.contains '[') then
      .error "Invalid IPv6 URL"
    else .ok remainder
  | _ => .ok s

/-- `urlparse`'s params split: cut at the first `;` occurring in the last
path segment (or anywhere, when the string has no `/`). -/
def splitParams (s : List Char) : List Char :=
  if s.contains '/' then
    let rev := s.reverse
    let afterRev := rev.takeWhile (· ≠ '/')
    let preRev := rev.dropWhile (· ≠ '/')
    let after := afterRev.reverse
    if after.contains ';' then preRev.reverse ++ after.takeWhile (· ≠ ';')
    else s
  else if s.contains ';' then s.takeWhile (· ≠ ';')
  else s

/-- `urllib.parse.urlparse(url).path`, with `.error` for the `ValueError`
CPython raises on a mismatched square bracket in the authority.  (The
additional bracketed-host validation added in CPython 3.11 is not modelled;
the mismatched-bracket check is the version-stable behaviour.) -/
def urlparsePath (url : String) : Except String (List Char) :=
  let s := removeUnsafe url.data
  let s := splitScheme s
  match splitNetloc s with
  | .error e => .error e
  | .ok s =>
    let s := s.takeWhile (· ≠ '#')
    let s := s.takeWhile (· ≠ '?')
    .ok (splitParams s)

/-- `path.strip('/')` (backend_app.py line 20). -/
def stripSlashes (s : List Char) : List Char :=
  ((s.dropWhile (· = '/')).reverse.dropWhile (· = '/')).reverse

/-! ## `extract_username` (backend_app.py lines 15-45) -/

/-- `([^/]+)` at the current position: the maximal run of non-`/` characters,
if non-empty. -/
def segAt (s : List Char) : Option (List Char) :=
  let seg := s.takeWhile (· ≠ '/')
  if seg.isEmpty then none else some seg

/-- `re.match(r"^(?:u/)?([^/]+)", path)` capture (leetcode branch, line 24).
When the optional `u/` is taken but `([^/]+)` then fails, the engine
backtracks and retries without the prefix. -/
def lcScan (path : List Char) : Option (List Char) :=
  match path with
  | 'u' :: '/' :: rest =>
    match segAt rest with
    | some seg => some seg
    | none => segAt path
  | _ => segAt path

/-- `(?:user/|profile/)([^/]+)` at the current position (geeksforgeeks
branch, line 29).  The two literal alternatives start with different
characters, so at most one of them can match at a given position. -/
def gfgMatchAt (s : List Char) : Option (List Char) :=
  match dropLit "user/".data s with
  | some r => segAt r
  | none => (dropLit "profile/".data s).bind segAt

/-- `(?:profile/)?([^/]+)` at the current position (hackerrank branch,
line 42), including the backtrack into the prefix when `([^/]+)` fails after
consuming `profile/`. -/
def hrMatchAt (s : List Char) : Option (List Char) :=
  match dropLit "profile/".data s with
  | some r =>
    match segAt r with
    | some seg => some seg
    | none => segAt s
  | none => segAt s

/-- The geeksforgeeks rule: the `user/`/`profile/` search, then the bare-path
fallback `if path and not '/' in path: return path` (lines 29-34). -/
def gfgRule (path : List Char) : Option String :=
  match scanFirst gfgMatchAt path with
  | some seg => some (String.mk seg)
  | none =>
    if !path.isEmpty && !path.contains '/' then some (String.mk path) else none

/-- `re.match(r"users/([^/]+)", path)` capture (codechef branch, line 37). -/
def ccScan (path : List Char) : Option (List Char) :=
  (dropLit "users/".data path).bind segAt

/-- `extract_username(url, platform)` (backend_app.py lines 15-45).
`Except.error` propagates the `ValueError` that `urlparse` raises; `.ok none`
is Python's `return None`. -/
def extract_username (url platform : String) : Except String (Option String) :=
  match urlparsePath url with
  | .error e => .error e
  | .ok p =>
    let path := stripSlashes p
    .ok (if platform = "leetcode" then (lcScan path).map String.mk
      else if platform = "geeksforgeeks" then gfgRule path
      else if platform = "codechef" then (ccScan path).map String.mk
      else if platform = "hackerrank" then (scanFirst hrMatchAt path).map String.mk
      else none)

/-! ## Data model -/

/-- The Python value stored under the `"solved"` key: an `int` or a string
(in practice always `"N/A"`). -/
inductive SolvedVal
  | num (n : Nat)
  | str (s : String)
deriving DecidableEq, Repr

/-- A platform result record `{"solved": ..., "url": ..., "error"?: ...}`. -/
structure PlatformResult where
  solved : SolvedVal
  url : String
  error : Option String
deriving DecidableEq, Repr

/-! ## LeetCode fetcher (backend_app.py lines 50-106) -/

/-- One element of `acSubmissionNum`. -/
structure LCStat where
  difficulty : String
  count : Nat
deriving DecidableEq, Repr

/-- The JSON body of a 200 response, abstracted to the shapes the code
distinguishes:
* `noUser` — `data.get("data")` falsy, or `data["data"].get("matchedUser")`
  falsy (line 89);
* `badShape msg` — the body has a matched user but the
  `["submitStats"]["acSubmissionNum"]` access raises (caught at line 105,
  `msg` being `str(e)`);
* `stats l` — the access yields the list of per-difficulty entries. -/
inductive LCJson
  | noUser
  | badShape (msg : String)
  | stats (l : List LCStat)
deriving DecidableEq, Repr

/-- How the LeetCode network interaction ends.  `clientError` is
`aiohttp.ClientError` (line 99), `timeout` is `asyncio.TimeoutError`
(line 101), `otherError` any other exception raised inside the `try`
(line 105).  `response status text body` is a completed HTTP exchange:
`text` is `await resp.text()`, and `body` is the JSON parse used when
`status = 200` (`none` models `json.JSONDecodeError`, line 103). -/
inductive LCOutcome
  | clientError (msg : String)
  | timeout
  | otherError (msg : String)
  | response (status : Nat) (text : String) (body : Option LCJson)
deriving DecidableEq, Repr

/-- `fetch_leetcode_stats(url)` (lines 50-106).  `extract_username` is called
*outside* the `try` block (line 54), so the `ValueError` that `urlparse` can
raise escapes the fetcher: that is the `Except.error` case. -/
def fetch_leetcode_stats (url : String) (o : LCOutcome) :
    Except String PlatformResult :=
  match extract_username url "leetcode" with
  | .error e => .error e
  | .ok none =>
    .ok ⟨.str "N/A", url, some "Invalid LeetCode URL format. Expected 'leetcode.com/username' or 'leetcode.com/u/username'."⟩
  | .ok (some _) =>
    .ok (match o with
    | .clientError msg => ⟨.str "N/A", url, some ("LeetCode network error: " ++ msg)⟩
    | .timeout => ⟨.str "N/A", url, some "LeetCode request timed out."⟩
    | .otherError msg => ⟨.str "N/A", url, some ("LeetCode unexpected error: " ++ msg)⟩
    | .response status text body =>
      if status ≠ 200 then
        ⟨.str "N/A", url, some ("LeetCode API HTTP " ++ toString status ++ " - "
          ++ (text.take 100) ++ " (likely private/nonexistent/blocked)")⟩
      else
        match body with
        | none => ⟨.str "N/A", url, some "LeetCode: Invalid JSON response."⟩
        | some .noUser =>
          ⟨.str "N/A", url, some "LeetCode profile not found or is set to private."⟩
        | some (.badShape msg) =>
          ⟨.str "N/A", url, some ("LeetCode unexpected error: " ++ msg)⟩
        | some (.stats l) =>
          match l.find? (fun st => st.difficulty = "All") with
          | some st => ⟨.num st.count, url, none⟩
          | none =>
            ⟨.str "N/A", url, some "LeetCode: Solved problem count for 'All' difficulty not found."⟩)

/-! ## GeeksforGeeks fetcher (backend_app.py lines 109-135) -/

/-- A fetched GfG page: `divText` is the text of the first `div` whose text
contains `"Problem Solved"` (`soup.find` at line 122, `none` when no such
div exists), `html` the raw page text. -/
structure GfgPage where
  divText : Option String
  html : String
deriving DecidableEq, Repr

/-- How the GfG network interaction ends.  `clientError` covers
`aiohttp.ClientError`, including the `ClientResponseError` raised by
`response.raise_for_status()` on a non-success status (line 117);
`timeout` is an `asyncio.TimeoutError` from the *default* session timeout
(the call at line 116 sets none of its own), caught by the generic
`except Exception` arm — `str()` of that exception is empty; `otherError`
is any other exception.  `page` is a success-status page. -/
inductive GfgOutcome
  | clientError (msg : String)
  | timeout
  | otherError (msg : String)
  | page (p : GfgPage)
deriving DecidableEq, Repr

/-- `fetch_geeksforgeeks_stats(url)` (lines 109-135).  Total: every
exception is caught. -/
def fetch_geeksforgeeks_stats (url : String) (o : GfgOutcome) : PlatformResult :=
  match o with
  | .clientError msg => ⟨.str "N/A", url, some ("GfG network error: " ++ msg)⟩
  | .timeout => ⟨.str "N/A", url, some "GfG unexpected error: "⟩
  | .otherError msg => ⟨.str "N/A", url, some ("GfG unexpected error: " ++ msg)⟩
  | .page p =>
    let fallback : PlatformResult :=
      match searchPS p.html.data with
      | some n => ⟨.num n, url, none⟩
      | none => ⟨.str "N/A", url, some "Could not parse solved count."⟩
    match p.divText with
    | some t =>
      (match searchPS t.data with
       | some n => ⟨.num n, url, none⟩
       | none => fallback)
    | none => fallback

/-! ## CodeChef fetcher (backend_app.py lines 138-202) -/

/-- A fetched CodeChef page: `sectionText` is the text of the
`section.rating-data-section.problems-solved` element (line 160, `none` when
absent), `spanText` the text of the first `span` whose text contains
`"Problems Solved"` (line 175, `none` when absent), `html` the raw page
text. -/
structure CCPage where
  sectionText : Option String
  spanText : Option String
  html : String
deriving DecidableEq, Repr

/-- How the CodeChef network interaction ends; constructors as for the other
fetchers (`clientError` includes `raise_for_status` on non-success;
`timeout` from the explicit 15-second bound at line 154). -/
inductive CCOutcome
  | clientError (msg : String)
  | timeout
  | otherError (msg : String)
  | page (p : CCPage)
deriving DecidableEq, Repr

/-- Lines 160-171: the problems-solved section block updating `solved_count`
(`Total Problems Solved:` match, else the maximum of the section's
integers). -/
def ccSectionPass (p : CCPage) (sc : SolvedVal) : SolvedVal :=
  match p.sectionText with
  | some t =>
    (match searchTPS t.data with
     | some n => .num n
     | none =>
       match maxRun t.data with
       | some m => .num m
       | none => sc)
  | none => sc

/-- Lines 173-179: the old-UI span fallback, run only while `solved_count`
is still `"N/A"` (first integer of the first span containing
`"Problems Solved"`). -/
def ccSpanPass (p : CCPage) (sc : SolvedVal) : SolvedVal :=
  if sc = .str "N/A" then
    match p.spanText with
    | some t => (match firstRun t.data with | some n => .num n | none => sc)
    | none => sc
  else sc

/-- Lines 181-190: the whole-page fallbacks, run only while `solved_count`
is still `"N/A"` (`Total Problems Solved:` match, else the looser
`Problems Solved[:,]?` match). -/
def ccPagePass (p : CCPage) (sc : SolvedVal) : SolvedVal :=
  if sc = .str "N/A" then
    match searchTPS p.html.data with
    | some n => .num n
    | none =>
      match searchPSLoose p.html.data with
      | some n => .num n
      | none => sc
  else sc

/-- The `solved_count` computation of `fetch_codechef_stats` on a fetched
page (lines 159-190): the three blocks above applied in source order to the
initial `"N/A"` (line 143). -/
def codechef_scan (p : CCPage) : SolvedVal :=
  ccPagePass p (ccSpanPass p (ccSectionPass p (.str "N/A")))

/-- The canonical profile URL the CodeChef fetcher requests,
`f"https://www.codechef.com/users/{username}"` (line 150); `.ok none` when
no username could be extracted (no request is made then). -/
def codechef_request (url : String) : Except String (Option String) :=
  (extract_username url "codechef").map
    (Option.map (fun u => "https://www.codechef.com/users/" ++ u))

/-- `fetch_codechef_stats(url)` (lines 138-202).  Total: `extract_username`
is called *inside* the `try` block (line 146), so the `ValueError` from
`urlparse` is caught by `except Exception` (line 201). -/
def fetch_codechef_stats (url : String) (o : CCOutcome) : PlatformResult :=
  match extract_username url "codechef" with
  | .error e => ⟨.str "N/A", url, some ("CodeChef unexpected error: " ++ e)⟩
  | .ok none => ⟨.str "N/A", url, some "Invalid CodeChef URL format."⟩
  | .ok (some _) =>
    match o with
    | .clientError msg => ⟨.str "N/A", url, some ("CodeChef network error: " ++ msg)⟩
    | .timeout => ⟨.str "N/A", url, some "CodeChef request timed out."⟩
    | .otherError msg => ⟨.str "N/A", url, some ("CodeChef unexpected error: " ++ msg)⟩
    | .page p =>
      match codechef_scan p with
      | .num n => ⟨.num n, url, none⟩
      | .str _ =>
        ⟨.str "N/A", url, some "CodeChef: Could not find solved problems count (might be private or UI changed)."⟩

/-! ## HackerRank fetcher (backend_app.py lines 205-248) -/

/-- A fetched HackerRank page: `privateMarker` records whether
`soup.find('div', class_='private-profile-page-wrapper')` finds an element
(line 226), `html` is the raw page text, `badgeCount` is
`len(soup.select('div.badge-card, div.ui-badge-card, div.hacker-badge, div.profile-badge'))`
(line 232). -/
structure HRPage where
  privateMarker : Bool
  html : String
  badgeCount : Nat
deriving DecidableEq, Repr

/-- How the HackerRank network interaction ends; constructors as for the
other fetchers. -/
inductive HROutcome
  | clientError (msg : String)
  | timeout
  | otherError (msg : String)
  | page (p : HRPage)
deriving DecidableEq, Repr

/-- The private/missing test at lines 226-228: the marker element, or the
substring `"profile not found"` or `"page not found"` in the lower-cased
page text. -/
def hrBlocked (p : HRPage) : Bool :=
  p.privateMarker
    || containsSub "profile not found".data (p.html.data.map Char.toLower)
    || containsSub "page not found".data (p.html.data.map Char.toLower)

/-- `fetch_hackerrank_stats(url)` (lines 205-248).  `extract_username` is
called *outside* the `try` block (line 210), so the `ValueError` from
`urlparse` escapes: that is the `Except.error` case. -/
def fetch_hackerrank_stats (url : String) (o : HROutcome) :
    Except String PlatformResult :=
  match extract_username url "hackerrank" with
  | .error e => .error e
  | .ok none => .ok ⟨.str "N/A", url, some "Invalid HackerRank URL format."⟩
  | .ok (some _) =>
    .ok (match o with
    | .clientError msg => ⟨.str "N/A", url, some ("HackerRank network error: " ++ msg)⟩
    | .timeout => ⟨.str "N/A", url, some "HackerRank request timed out."⟩
    | .otherError msg => ⟨.str "N/A", url, some ("HackerRank unexpected error: " ++ msg)⟩
    | .page p =>
      if hrBlocked p then
        ⟨.str "N/A", url, some "HackerRank profile private or not found."⟩
      else if p.badgeCount = 0 then
        ⟨.str "N/A", url, some "No badges found on HackerRank profile. (UI might have changed or no badges earned)"⟩
      else ⟨.num p.badgeCount, url, none⟩)

/-- The explicit timeout passed to the outbound call of each fetcher:
`aiohttp.ClientTimeout(total=15)` at lines 81 (leetcode), 154 (codechef) and
220 (hackerrank); the geeksforgeeks call at line 116 passes none. -/
def fetcherTimeout : String → Option Nat
  | "leetcode" => some 15
  | "geeksforgeeks" => none
  | "codechef" => some 15
  | "hackerrank" => some 15
  | _ => none

/-! ## The aggregator endpoint `get_stats` (backend_app.py lines 253-306) -/

/-- The optional platform URL fields of the request body
(`data.get('leetcode')` etc., lines 259-264). -/
structure StatsRequest where
  leetcode : Option String
  geeksforgeeks : Option String
  codechef : Option String
  hackerrank : Option String
deriving DecidableEq, Repr

/-- The URL field of the request for a platform key. -/
def reqUrl (req : StatsRequest) : String → Option String
  | "leetcode" => req.leetcode
  | "geeksforgeeks" => req.geeksforgeeks
  | "codechef" => req.codechef
  | "hackerrank" => req.hackerrank
  | _ => none

/-- Python truthiness of an optional string: `None` and `""` are falsy
(`if urls[k]:`, line 275). -/
def truthy : Option String → Bool
  | none => false
  | some s => s ≠ ""

/-- One upstream outcome per platform: the environment of a single request. -/
structure Network where
  lc : LCOutcome
  gfg : GfgOutcome
  cc : CCOutcome
  hr : HROutcome
deriving DecidableEq, Repr

/-- The fixed platform key order of the `fetchers` dict (lines 265-270). -/
def platformKeys : List String :=
  ["leetcode", "geeksforgeeks", "codechef", "hackerrank"]

/-- The scheduled fetches, in dict order (lines 274-277): one task per
platform whose URL is truthy.  Fetchers that can raise produce their
`Except` verbatim; the always-total fetchers are wrapped in `.ok`. -/
def fetchResults (req : StatsRequest) (net : Network) :
    List (String × Except String PlatformResult) :=
  (if truthy req.leetcode then
    [("leetcode", fetch_leetcode_stats (req.leetcode.getD "") net.lc)] else [])
  ++ (if truthy req.geeksforgeeks then
    [("geeksforgeeks", .ok (fetch_geeksforgeeks_stats (req.geeksforgeeks.getD "") net.gfg))] else [])
  ++ (if truthy req.codechef then
    [("codechef", .ok (fetch_codechef_stats (req.codechef.getD "") net.cc))] else [])
  ++ (if truthy req.hackerrank then
    [("hackerrank", fetch_hackerrank_stats (req.hackerrank.getD "") net.hr)] else [])

/-- `asyncio.gather` without `return_exceptions` (line 280): all results in
order when no task raises, otherwise the first raised exception propagates
(our tasks can only raise synchronously, in scheduling order). -/
def gatherExcept :
    List (String × Except String PlatformResult) →
    Except String (List (String × PlatformResult))
  | [] => .ok []
  | (_, .error e) :: _ => .error e
  | (k, .ok r) :: rest => (gatherExcept rest).map (fun m => (k, r) :: m)

/-- The placeholder for a platform that was not requested (line 290). -/
def naPlaceholder : PlatformResult := ⟨.str "N/A", "", none⟩

/-- Lines 282-290: results keyed by platform, then the unrequested platforms
appended with the placeholder, in `fetchers.keys()` order. -/
def fillMissing (stats : List (String × PlatformResult)) :
    List (String × PlatformResult) :=
  stats ++ (platformKeys.filter
    (fun k => !(stats.map Prod.fst).contains k)).map (fun k => (k, naPlaceholder))

/-- One term of the total (lines 299-304): `int(solved)` when
`str(solved).isdigit()`, else 0.  `str(n)` of a `Nat` is all digits, so a
numeric `solved` always contributes itself; a string contributes its value
exactly when it is a non-empty digit string (`"N/A"` is not). -/
def contribution : SolvedVal → Nat
  | .num n => n
  | .str s => if !s.data.isEmpty && s.data.all isDigitC then digitsToNat s.data else 0

/-- The total loop (lines 294-304): fold over the entries, skipping the
`hackerrank` key (line 296). -/
def totalLoop (stats : List (String × PlatformResult)) : Nat :=
  stats.foldl (fun acc e => if e.1 = "hackerrank" then acc else acc + contribution e.2.solved) 0

/-- The response body `{"platforms": ..., "totalSolved": ...}` (line 306). -/
structure StatsResponse where
  platforms : List (String × PlatformResult)
  totalSolved : Nat
deriving DecidableEq, Repr

/-- The endpoint body from `urls = ...` on (lines 259-306), for a request
that had a JSON body.  `.error` is an exception escaping a fetcher (the
endpoint has no handler: Flask would turn it into a 500 with no aggregate
body). -/
def get_stats (req : StatsRequest) (net : Network) : Except String StatsResponse :=
  (gatherExcept (fetchResults req net)).map (fun stats =>
    let ps := fillMissing stats
    ⟨ps, totalLoop ps⟩)

/-! ## Specification-side definitions (vocabulary of the claims) -/

/-- The spec's reading of one total term: a numeric `solved` contributes
itself, a non-numeric one contributes 0. -/
def specContribution : SolvedVal → Nat
  | .num n => n
  | .str _ => 0

/-- Package an optional count the way the fetchers do. -/
def toSolved : Option Nat → SolvedVal
  | some n => .num n
  | none => .str "N/A"

/-- Claim step: `Total Problems Solved: <digits>` against the dedicated
problems-solved section's text. -/
def ccStepSection (p : CCPage) : Option Nat :=
  p.sectionText.bind (fun t => searchTPS t.data)

/-- Claim step: the maximum of all integers in the section's text. -/
def ccStepSectionMax (p : CCPage) : Option Nat :=
  p.sectionText.bind (fun t => maxRun t.data)

/-- The old-UI fallback the source also performs (lines 174-179): the first
integer in the text of the first `span` containing `"Problems Solved"`. -/
def ccStepSpan (p : CCPage) : Option Nat :=
  p.spanText.bind (fun t => firstRun t.data)

/-- Claim step: `Total Problems Solved: <digits>` against the full page. -/
def ccStepPageTPS (p : CCPage) : Option Nat := searchTPS p.html.data

/-- Claim step: the looser `Problems Solved[:,]? <digits>` against the full
page. -/
def ccStepPageLoose (p : CCPage) : Option Nat := searchPSLoose p.html.data

/-- The CodeChef extraction procedure exactly as claim C6 words it: the four
listed steps in order, stopping at the first that yields a number. -/
def codechefClaimSolve (p : CCPage) : Option Nat :=
  ccStepSection p <|> ccStepSectionMax p <|> ccStepPageTPS p <|> ccStepPageLoose p

/-- The actual cascade of the source: the claim's four steps with the
old-UI span fallback inserted between the section steps and the whole-page
steps. -/
def codechefFiveStep (p : CCPage) : Option Nat :=
  ccStepSection p <|> ccStepSectionMax p <|> ccStepSpan p <|>
    ccStepPageTPS p <|> ccStepPageLoose p

/-- A fetch record as the spec describes one: either a numeric solved count
and no error, or solved `"N/A"` together with a non-empty error message. -/
def goodRec (r : PlatformResult) : Prop :=
  (∃ n, r.solved = .num n ∧ r.error = none) ∨
    (r.solved = .str "N/A" ∧ ∃ e, r.error = some e ∧ e ≠ "")

/-! ## Concrete inputs used by witnesses and counterexamples -/

/-- A CodeChef page with no problems-solved section, an old-UI span reading
`Problems Solved 42`, and a page body that also carries
`Total Problems Solved: 7`. -/
def pageCx : CCPage :=
  ⟨none, some "Problems Solved 42",
    "<span>Problems Solved 42</span> Total Problems Solved: 7"⟩

/-- A public HackerRank page with no badges. -/
def hrEmptyPage : HRPage := ⟨false, "", 0⟩

/-- A request supplying no URL at all. -/
def reqNone : StatsRequest := ⟨none, none, none, none⟩

/-- An environment in which every upstream call would time out. -/
def netTimeouts : Network := ⟨.timeout, .timeout, .timeout, .timeout⟩

/-- The response to `reqNone`: four placeholders and total 0. -/
def respNone : StatsResponse :=
  ⟨[("leetcode", naPlaceholder), ("geeksforgeeks", naPlaceholder),
    ("codechef", naPlaceholder), ("hackerrank", naPlaceholder)], 0⟩

/-- A request supplying only the LeetCode URL. -/
def reqLCOnly : StatsRequest := ⟨some "https://leetcode.com/alice", none, none, none⟩

/-- The keys of the scheduled fetches as a function of the request alone. -/
def keyList (req : StatsRequest) : List String :=
  (if truthy req.leetcode then ["leetcode"] else []) ++
  (if truthy req.geeksforgeeks then ["geeksforgeeks"] else []) ++
  (if truthy req.codechef then ["codechef"] else []) ++
  (if truthy req.hackerrank then ["hackerrank"] else [])

/-- The record the LeetCode fetcher returns for `reqLCOnly` when its call
times out. -/
def lcTimeoutRec : PlatformResult :=
  ⟨.str "N/A", "https://leetcode.com/alice", some "LeetCode request timed out."⟩

/-- The response to `reqLCOnly` under `netTimeouts`. -/
def respLC : StatsResponse :=
  ⟨[("leetcode", lcTimeoutRec), ("geeksforgeeks", naPlaceholder),
    ("codechef", naPlaceholder), ("hackerrank", naPlaceholder)], 0⟩

/-! ## General-purpose lemmas -/

theorem mk_ne_empty {l : List Char} (h : l ≠ []) : String.mk l ≠ "" := by
  intro hc
  exact h (by simpa using congrArg String.data hc)

theorem ne_empty_of_left (a b : String) (h : a ≠ "") : a ++ b ≠ "" := by
  intro hc
  apply h
  have hd : (a ++ b).data = ([] : List Char) := by rw [hc]
  rw [String.data_append] at hd
  rcases List.append_eq_nil.mp hd with ⟨h1, _⟩
  cases a
  simp_all

theorem segAt_ne_nil {s seg : List Char} (h : segAt s = some seg) : seg ≠ [] := by
  have h : (if (s.takeWhile (· ≠ '/')).isEmpty then none
      else some (s.takeWhile (· ≠ '/'))) = some seg := h
  split at h
  · exact Option.noConfusion h
  · next hne =>
    injection h with h
    intro hnil
    exact hne (by rw [h, hnil]; rfl)

theorem scanFirst_ne_nil {m : List Char → Option (List Char)}
    (hm : ∀ s seg, m s = some seg → seg ≠ []) :
    ∀ s seg, scanFirst m s = some seg → seg ≠ [] := by
  intro s
  induction s with
  | nil => intro seg h; exact hm [] seg (by simpa [scanFirst] using h)
  | cons c rest ih =>
    intro seg h
    unfold scanFirst at h
    cases hmc : m (c :: rest) with
    | some x =>
      rw [hmc] at h
      simp only [Option.some.injEq] at h
      exact h ▸ hm _ x hmc
    | none => rw [hmc] at h; exact ih seg h

theorem lcScan_ne_nil {path seg : List Char} (h : lcScan path = some seg) :
    seg ≠ [] := by
  unfold lcScan at h
  split at h
  · next rest =>
    cases hs : segAt rest with
    | some s => rw [hs] at h; injection h with h; exact h ▸ segAt_ne_nil hs
    | none => rw [hs] at h; exact segAt_ne_nil h
  · exact segAt_ne_nil h

theorem gfgMatchAt_ne_nil {s seg : List Char} (h : gfgMatchAt s = some seg) :
    seg ≠ [] := by
  unfold gfgMatchAt at h
  cases hd : dropLit "user/".data s with
  | some r => rw [hd] at h; exact segAt_ne_nil h
  | none =>
    rw [hd] at h
    cases hp : dropLit "profile/".data s with
    | some r => rw [hp] at h; exact segAt_ne_nil (by simpa using h)
    | none => rw [hp] at h; simp at h

theorem hrMatchAt_ne_nil {s seg : List Char} (h : hrMatchAt s = some seg) :
    seg ≠ [] := by
  unfold hrMatchAt at h
  cases hd : dropLit "profile/".data s with
  | some r =>
    rw [hd] at h
    try dsimp only at h
    cases hs : segAt r with
    | some x => rw [hs] at h; injection h with h; exact h ▸ segAt_ne_nil hs
    | none => rw [hs] at h; exact segAt_ne_nil h
  | none => rw [hd] at h; exact segAt_ne_nil h

theorem ccScan_ne_nil {path seg : List Char} (h : ccScan path = some seg) :
    seg ≠ [] := by
  unfold ccScan at h
  cases hd : dropLit "users/".data path with
  | some r => rw [hd] at h; exact segAt_ne_nil (by simpa using h)
  | none => rw [hd] at h; simp at h

theorem gfgRule_ne_empty {path : List Char} {s : String}
    (h : gfgRule path = some s) : s ≠ "" := by
  unfold gfgRule at h
  cases hs : scanFirst gfgMatchAt path with
  | some seg =>
    rw [hs] at h
    injection h with h
    exact h ▸ mk_ne_empty (scanFirst_ne_nil (fun _ _ => gfgMatchAt_ne_nil) _ _ hs)
  | none =>
    rw [hs] at h
    by_cases hc : (!path.isEmpty && !path.contains '/') = true
    · rw [if_pos hc] at h
      injection h with h
      refine h ▸ mk_ne_empty ?_
      intro hnil
      rw [hnil] at hc
      simp at hc
    · rw [if_neg hc] at h
      exact Option.noConfusion h

theorem isOk_iff_exists {α : Type} (x : Except String α) :
    x.isOk = true ↔ ∃ a, x = .ok a := by
  cases x <;> simp [Except.isOk, Except.toBool]

theorem extract_ok_of_parse (url platform : String) (p : List Char)
    (hup : urlparsePath url = .ok p) :
    ∃ x, extract_username url platform = .ok x := by
  unfold extract_username
  rw [hup]
  exact ⟨_, rfl⟩

theorem extract_username_eval (url : String) (p : List Char)
    (hup : urlparsePath url = .ok p) :
    extract_username url "leetcode" = .ok ((lcScan (stripSlashes p)).map String.mk) ∧
    extract_username url "geeksforgeeks" = .ok (gfgRule (stripSlashes p)) ∧
    extract_username url "codechef" = .ok ((ccScan (stripSlashes p)).map String.mk) ∧
    extract_username url "hackerrank" =
      .ok ((scanFirst hrMatchAt (stripSlashes p)).map String.mk) := by
  unfold extract_username
  rw [hup]
  exact ⟨rfl, rfl, rfl, rfl⟩

/-! ## Claim theorems -/

/-- Claim C9 (confirmed): for each platform, applying username extraction to
that platform's known URL shape variants containing username `alice` yields
`"alice"`. -/
theorem claim_extraction_known_shapes :
    extract_username "https://leetcode.com/alice" "leetcode" = .ok (some "alice")
    ∧ extract_username "https://leetcode.com/u/alice" "leetcode" = .ok (some "alice")
    ∧ extract_username "https://www.geeksforgeeks.org/user/alice" "geeksforgeeks" = .ok (some "alice")
    ∧ extract_username "https://www.geeksforgeeks.org/profile/alice" "geeksforgeeks" = .ok (some "alice")
    ∧ extract_username "https://www.geeksforgeeks.org/alice" "geeksforgeeks" = .ok (some "alice")
    ∧ extract_username "https://www.codechef.com/users/alice" "codechef" = .ok (some "alice")
    ∧ extract_username "https://www.hackerrank.com/profile/alice" "hackerrank" = .ok (some "alice")
    ∧ extract_username "https://www.hackerrank.com/alice" "hackerrank" = .ok (some "alice") :=
  ⟨rfl, rfl, rfl, rfl, rfl, rfl, rfl, rfl⟩

/-- Claim C8, counterexample: `extract_username` is not total — on a URL
whose authority has a `[` without a matching `]`, `urlparse` raises
`ValueError("Invalid IPv6 URL")` and `extract_username` propagates it, for
the platform tag `leetcode` (and every other). -/
theorem claim_extraction_counterexample :
    extract_username "http://[a" "leetcode" = .error "Invalid IPv6 URL" := rfl

/-- Claim C8 (amended): for every URL and platform tag among the four,
username extraction returns a non-empty string or the none value whenever
URL parsing accepts the URL; on a URL that parsing rejects (mismatched
square bracket in the authority) it propagates that parse error instead of
returning. -/
theorem claim_extraction_total_mod_parse (url platform : String)
    (hp : platform ∈ platformKeys) :
    (∀ p, urlparsePath url = .ok p →
      extract_username url platform = .ok none ∨
      ∃ s, extract_username url platform = .ok (some s) ∧ s ≠ "") ∧
    (∀ e, urlparsePath url = .error e →
      extract_username url platform = .error e) := by
  constructor
  · intro p hup
    fin_cases hp
    · rcases hl : lcScan (stripSlashes p) with _ | seg
      · left
        rw [(extract_username_eval url p hup).1, hl]
        rfl
      · right
        exact ⟨String.mk seg,
          by rw [(extract_username_eval url p hup).1, hl]; rfl,
          mk_ne_empty (lcScan_ne_nil hl)⟩
    · rcases hg : gfgRule (stripSlashes p) with _ | s
      · left
        rw [(extract_username_eval url p hup).2.1, hg]
      · right
        exact ⟨s, by rw [(extract_username_eval url p hup).2.1, hg],
          gfgRule_ne_empty hg⟩
    · rcases hc : ccScan (stripSlashes p) with _ | seg
      · left
        rw [(extract_username_eval url p hup).2.2.1, hc]
        rfl
      · right
        exact ⟨String.mk seg,
          by rw [(extract_username_eval url p hup).2.2.1, hc]; rfl,
          mk_ne_empty (ccScan_ne_nil hc)⟩
    · rcases hh : scanFirst hrMatchAt (stripSlashes p) with _ | seg
      · left
        rw [(extract_username_eval url p hup).2.2.2, hh]
        rfl
      · right
        exact ⟨String.mk seg,
          by rw [(extract_username_eval url p hup).2.2.2, hh]; rfl,
          mk_ne_empty (scanFirst_ne_nil (fun _ _ => hrMatchAt_ne_nil) _ _ hh)⟩
  · intro e he
    unfold extract_username
    rw [he]

/-- Witness for C8's amended theorem at a concrete URL and platform. -/
theorem claim_extraction_total_mod_parse_w :
    extract_username "https://leetcode.com/alice" "leetcode" = .ok none ∨
    ∃ s, extract_username "https://leetcode.com/alice" "leetcode" = .ok (some s)
      ∧ s ≠ "" :=
  (claim_extraction_total_mod_parse "https://leetcode.com/alice" "leetcode"
    (by decide)).1 "/alice".data rfl

theorem gfg_goodRec (url : String) (o : GfgOutcome) :
    goodRec (fetch_geeksforgeeks_stats url o) := by
  cases o with
  | clientError msg =>
    right; exact ⟨rfl, _, rfl, ne_empty_of_left _ _ (by decide)⟩
  | timeout => right; exact ⟨rfl, _, rfl, by decide⟩
  | otherError msg =>
    right; exact ⟨rfl, _, rfl, ne_empty_of_left _ _ (by decide)⟩
  | page p =>
    cases hdv : p.divText with
    | none =>
      cases hps : searchPS p.html.data with
      | some n =>
        left
        exact ⟨n, by simp [fetch_geeksforgeeks_stats, hdv, hps],
          by simp [fetch_geeksforgeeks_stats, hdv, hps]⟩
      | none =>
        right
        refine ⟨by simp [fetch_geeksforgeeks_stats, hdv, hps],
          "Could not parse solved count.",
          by simp [fetch_geeksforgeeks_stats, hdv, hps], by decide⟩
    | some t =>
      cases hpt : searchPS t.data with
      | some n =>
        left
        exact ⟨n, by simp [fetch_geeksforgeeks_stats, hdv, hpt],
          by simp [fetch_geeksforgeeks_stats, hdv, hpt]⟩
      | none =>
        cases hps : searchPS p.html.data with
        | some n =>
          left
          exact ⟨n, by simp [fetch_geeksforgeeks_stats, hdv, hpt, hps],
            by simp [fetch_geeksforgeeks_stats, hdv, hpt, hps]⟩
        | none =>
          right
          refine ⟨by simp [fetch_geeksforgeeks_stats, hdv, hpt, hps],
            "Could not parse solved count.",
            by simp [fetch_geeksforgeeks_stats, hdv, hpt, hps], by decide⟩

theorem cc_goodRec (url : String) (o : CCOutcome) :
    goodRec (fetch_codechef_stats url o) := by
  unfold fetch_codechef_stats
  cases hex : extract_username url "codechef" with
  | error e =>
    right; exact ⟨rfl, _, rfl, ne_empty_of_left _ _ (by decide)⟩
  | ok uo =>
    cases uo with
    | none => right; exact ⟨rfl, _, rfl, by decide⟩
    | some u =>
      cases o with
      | clientError msg =>
        right; exact ⟨rfl, _, rfl, ne_empty_of_left _ _ (by decide)⟩
      | timeout => right; exact ⟨rfl, _, rfl, by decide⟩
      | otherError msg =>
        right; exact ⟨rfl, _, rfl, ne_empty_of_left _ _ (by decide)⟩
      | page p =>
        dsimp only
        cases hcs : codechef_scan p with
        | num n => left; exact ⟨n, rfl, rfl⟩
        | str s => right; exact ⟨rfl, _, rfl, by decide⟩

theorem lc_goodRec (url : String) (o : LCOutcome) (r : PlatformResult)
    (h : fetch_leetcode_stats url o = .ok r) : goodRec r := by
  unfold fetch_leetcode_stats at h
  cases hex : extract_username url "leetcode" with
  | error e => rw [hex] at h; exact Except.noConfusion h
  | ok uo =>
    rw [hex] at h
    cases uo with
    | none =>
      try dsimp only at h
      injection h with h
      subst h
      right; exact ⟨rfl, _, rfl, by decide⟩
    | some u =>
      try dsimp only at h
      cases o with
      | clientError msg =>
        try dsimp only at h
        injection h with h
        subst h
        right; exact ⟨rfl, _, rfl, ne_empty_of_left _ _ (by decide)⟩
      | timeout =>
        try dsimp only at h
        injection h with h
        subst h
        right; exact ⟨rfl, _, rfl, by decide⟩
      | otherError msg =>
        try dsimp only at h
        injection h with h
        subst h
        right; exact ⟨rfl, _, rfl, ne_empty_of_left _ _ (by decide)⟩
      | response status text body =>
        try dsimp only at h
        injection h with h
        split at h
        · subst h
          right
          exact ⟨rfl, _, rfl,
            ne_empty_of_left _ _ (ne_empty_of_left _ _ (ne_empty_of_left _ _
              (ne_empty_of_left _ _ (by decide))))⟩
        · cases body with
          | none =>
            try dsimp only at h
            subst h
            right; exact ⟨rfl, _, rfl, by decide⟩
          | some j =>
            try dsimp only at h
            cases j with
            | noUser =>
              try dsimp only at h
              subst h
              right; exact ⟨rfl, _, rfl, by decide⟩
            | badShape msg =>
              try dsimp only at h
              subst h
              right; exact ⟨rfl, _, rfl, ne_empty_of_left _ _ (by decide)⟩
            | stats l =>
              try dsimp only at h
              cases hf : l.find? (fun st => st.difficulty = "All") with
              | some st =>
                rw [hf] at h
                subst h
                left; exact ⟨st.count, rfl, rfl⟩
              | none =>
                rw [hf] at h
                subst h
                right; exact ⟨rfl, _, rfl, by decide⟩

theorem hr_goodRec (url : String) (o : HROutcome) (r : PlatformResult)
    (h : fetch_hackerrank_stats url o = .ok r) : goodRec r := by
  unfold fetch_hackerrank_stats at h
  cases hex : extract_username url "hackerrank" with
  | error e => rw [hex] at h; exact Except.noConfusion h
  | ok uo =>
    rw [hex] at h
    cases uo with
    | none =>
      try dsimp only at h
      injection h with h
      subst h
      right; exact ⟨rfl, _, rfl, by decide⟩
    | some u =>
      try dsimp only at h
      cases o with
      | clientError msg =>
        try dsimp only at h
        injection h with h
        subst h
        right; exact ⟨rfl, _, rfl, ne_empty_of_left _ _ (by decide)⟩
      | timeout =>
        try dsimp only at h
        injection h with h
        subst h
        right; exact ⟨rfl, _, rfl, by decide⟩
      | otherError msg =>
        try dsimp only at h
        injection h with h
        subst h
        right; exact ⟨rfl, _, rfl, ne_empty_of_left _ _ (by decide)⟩
      | page p =>
        try dsimp only at h
        injection h with h
        by_cases hb : hrBlocked p = true
        · rw [if_pos hb] at h
          subst h
          right; exact ⟨rfl, _, rfl, by decide⟩
        · rw [if_neg hb] at h
          by_cases hz : p.badgeCount = 0
          · rw [if_pos hz] at h
            subst h
            right; exact ⟨rfl, _, rfl, by decide⟩
          · rw [if_neg hz] at h
            subst h
            left; exact ⟨p.badgeCount, rfl, rfl⟩

theorem lc_ok_of_parse (url : String) (o : LCOutcome) (p : List Char)
    (hup : urlparsePath url = .ok p) :
    (fetch_leetcode_stats url o).isOk = true := by
  obtain ⟨x, hx⟩ := extract_ok_of_parse url "leetcode" p hup
  unfold fetch_leetcode_stats
  rw [hx]
  cases x <;> rfl

theorem hr_ok_of_parse (url : String) (o : HROutcome) (p : List Char)
    (hup : urlparsePath url = .ok p) :
    (fetch_hackerrank_stats url o).isOk = true := by
  obtain ⟨x, hx⟩ := extract_ok_of_parse url "hackerrank" p hup
  unfold fetch_hackerrank_stats
  rw [hx]
  cases x <;> rfl

/-- Claim C3, counterexample: the LeetCode and HackerRank fetchers call
`extract_username` before entering their `try` block, so the `ValueError`
that `urlparse` raises on `"http://[a"` escapes the fetcher instead of being
captured in the result. -/
theorem claim_fetchers_raise_counterexample :
    fetch_leetcode_stats "http://[a" .timeout = .error "Invalid IPv6 URL" ∧
    fetch_hackerrank_stats "http://[a" .timeout = .error "Invalid IPv6 URL" :=
  ⟨rfl, rfl⟩

/-- Claim C3 (amended): the GeeksforGeeks and CodeChef fetchers never raise
and always return a record that is either a numeric success without error or
an `"N/A"` failure with a non-empty error message; the LeetCode and
HackerRank fetchers satisfy the same for every result they return, and they
do return (rather than raise) whenever URL parsing accepts the input URL —
on a URL that parsing rejects they propagate the parser's `ValueError`. -/
theorem claim_fetchers_capture_failures :
    (∀ url o, goodRec (fetch_geeksforgeeks_stats url o)) ∧
    (∀ url o, goodRec (fetch_codechef_stats url o)) ∧
    (∀ url o r, fetch_leetcode_stats url o = .ok r → goodRec r) ∧
    (∀ url o r, fetch_hackerrank_stats url o = .ok r → goodRec r) ∧
    (∀ url o p, urlparsePath url = .ok p →
      (fetch_leetcode_stats url o).isOk = true) ∧
    (∀ url o p, urlparsePath url = .ok p →
      (fetch_hackerrank_stats url o).isOk = true) :=
  ⟨gfg_goodRec, cc_goodRec, lc_goodRec, hr_goodRec,
    fun url o p h => lc_ok_of_parse url o p h,
    fun url o p h => hr_ok_of_parse url o p h⟩

/-- Witness for C3's amended theorem: concrete failing outcomes produce
well-shaped records, and the LeetCode fetcher returns on a parseable URL. -/
theorem claim_fetchers_capture_failures_w :
    goodRec (fetch_geeksforgeeks_stats "https://www.geeksforgeeks.org/user/alice" .timeout) ∧
    goodRec ⟨.str "N/A", "https://leetcode.com/alice", some "LeetCode request timed out."⟩ ∧
    (fetch_leetcode_stats "https://leetcode.com/alice" .timeout).isOk = true :=
  ⟨claim_fetchers_capture_failures.1 _ .timeout,
    claim_fetchers_capture_failures.2.2.1 "https://leetcode.com/alice" .timeout _ rfl,
    claim_fetchers_capture_failures.2.2.2.2.1 "https://leetcode.com/alice" .timeout
      "/alice".data rfl⟩

/-- Claim C4, counterexample: the GeeksforGeeks fetcher's outbound call
passes no explicit timeout (backend_app.py line 116), so it does not enforce
the claimed 15-unit bound. -/
theorem claim_gfg_timeout_counterexample :
    fetcherTimeout "geeksforgeeks" ≠ some 15 := by decide

/-- Claim C4 (amended): the LeetCode, CodeChef and HackerRank fetchers each
pass their own explicit 15-unit bound to their outbound call, while the
GeeksforGeeks fetcher passes none (inheriting the HTTP library default); for
all four, a timed-out call is captured as an error inside the returned
record rather than propagating. -/
theorem claim_timeout_bounds_and_capture :
    fetcherTimeout "leetcode" = some 15 ∧
    fetcherTimeout "codechef" = some 15 ∧
    fetcherTimeout "hackerrank" = some 15 ∧
    fetcherTimeout "geeksforgeeks" = none ∧
    (∀ url, fetch_geeksforgeeks_stats url .timeout =
      ⟨.str "N/A", url, some "GfG unexpected error: "⟩) ∧
    (∀ url u, extract_username url "leetcode" = .ok (some u) →
      fetch_leetcode_stats url .timeout =
        .ok ⟨.str "N/A", url, some "LeetCode request timed out."⟩) ∧
    (∀ url u, extract_username url "codechef" = .ok (some u) →
      fetch_codechef_stats url .timeout =
        ⟨.str "N/A", url, some "CodeChef request timed out."⟩) ∧
    (∀ url u, extract_username url "hackerrank" = .ok (some u) →
      fetch_hackerrank_stats url .timeout =
        .ok ⟨.str "N/A", url, some "HackerRank request timed out."⟩) := by
  refine ⟨rfl, rfl, rfl, rfl, fun url => rfl, ?_, ?_, ?_⟩
  · intro url u h
    unfold fetch_leetcode_stats
    rw [h]
  · intro url u h
    unfold fetch_codechef_stats
    rw [h]
  · intro url u h
    unfold fetch_hackerrank_stats
    rw [h]

/-- Witness for C4's amended theorem at concrete URLs. -/
theorem claim_timeout_bounds_and_capture_w :
    fetch_leetcode_stats "https://leetcode.com/alice" .timeout =
      .ok ⟨.str "N/A", "https://leetcode.com/alice", some "LeetCode request timed out."⟩ ∧
    fetch_codechef_stats "https://www.codechef.com/users/alice" .timeout =
      ⟨.str "N/A", "https://www.codechef.com/users/alice", some "CodeChef request timed out."⟩ ∧
    fetch_hackerrank_stats "https://www.hackerrank.com/alice" .timeout =
      .ok ⟨.str "N/A", "https://www.hackerrank.com/alice", some "HackerRank request timed out."⟩ :=
  ⟨claim_timeout_bounds_and_capture.2.2.2.2.2.1 _ "alice" rfl,
    claim_timeout_bounds_and_capture.2.2.2.2.2.2.1 _ "alice" rfl,
    claim_timeout_bounds_and_capture.2.2.2.2.2.2.2 _ "alice" rfl⟩

theorem toSolved_orElse (a b : Option Nat) :
    toSolved (a <|> b) = (match a with | some n => SolvedVal.num n | none => toSolved b) := by
  cases a <;> rfl

theorem orElse_assoc (a b c : Option Nat) :
    ((a <|> b) <|> c) = (a <|> (b <|> c)) := by
  cases a <;> rfl

theorem ccSectionPass_eval (p : CCPage) :
    ccSectionPass p (.str "N/A") =
      toSolved (ccStepSection p <|> ccStepSectionMax p) := by
  unfold ccSectionPass ccStepSection ccStepSectionMax
  rcases hsec : p.sectionText with _ | t
  · rfl
  · dsimp only [Option.bind]
    rcases h1 : searchTPS t.data with _ | n
    · rcases h2 : maxRun t.data with _ | m <;> rfl
    · rfl

theorem ccSpanPass_eval (p : CCPage) (g : Option Nat) :
    ccSpanPass p (toSolved g) = toSolved (g <|> ccStepSpan p) := by
  unfold ccSpanPass ccStepSpan
  cases g with
  | some k => rfl
  | none =>
    dsimp only [toSolved, Option.bind]
    rw [if_pos rfl]
    rcases hspan : p.spanText with _ | ts
    · rfl
    · rcases h3 : firstRun ts.data with _ | fn <;> rfl

theorem ccPagePass_eval (p : CCPage) (g : Option Nat) :
    ccPagePass p (toSolved g) =
      toSolved (g <|> (ccStepPageTPS p <|> ccStepPageLoose p)) := by
  unfold ccPagePass ccStepPageTPS ccStepPageLoose
  cases g with
  | some k => rfl
  | none =>
    dsimp only [toSolved]
    rw [if_pos rfl]
    rcases h4 : searchTPS p.html.data with _ | pn
    · rcases h5 : searchPSLoose p.html.data with _ | ln <;> rfl
    · rfl

theorem codechef_scan_eq_fiveStep (p : CCPage) :
    codechef_scan p = toSolved (codechefFiveStep p) := by
  unfold codechef_scan codechefFiveStep
  rw [ccSectionPass_eval, ccSpanPass_eval, ccPagePass_eval, orElse_assoc,
    orElse_assoc]

/-- Claim C6, counterexample: on a page with no problems-solved section, an
old-UI span reading `Problems Solved 42`, and `Total Problems Solved: 7`
elsewhere in the page body, the code's scan yields 42 (from the span
fallback the claim omits) while the claim's four-step procedure yields 7
(from its step 3). -/
theorem claim_codechef_steps_counterexample :
    codechef_scan pageCx = .num 42 ∧
    codechefClaimSolve pageCx = some 7 ∧
    codechef_scan pageCx ≠ toSolved (codechefClaimSolve pageCx) := by
  refine ⟨by decide, by decide, ?_⟩
  intro h
  rw [show codechefClaimSolve pageCx = some 7 from by decide] at h
  rw [show codechef_scan pageCx = .num 42 from by decide] at h
  exact absurd h (by decide)

/-- Claim C6 (amended): the CodeChef scan is the claim's four steps with a
fifth step inserted between the section steps and the whole-page steps — the
old-UI fallback taking the first integer of the first span containing
`Problems Solved` — and the fetcher returns a failure record exactly when
all five steps fail. -/
theorem claim_codechef_five_steps :
    (∀ p, codechef_scan p = toSolved (codechefFiveStep p)) ∧
    (∀ url u p, extract_username url "codechef" = .ok (some u) →
      fetch_codechef_stats url (.page p) =
        match codechefFiveStep p with
        | some n => ⟨.num n, url, none⟩
        | none => ⟨.str "N/A", url,
            some "CodeChef: Could not find solved problems count (might be private or UI changed)."⟩) := by
  refine ⟨codechef_scan_eq_fiveStep, ?_⟩
  intro url u p h
  unfold fetch_codechef_stats
  rw [h]
  dsimp only
  rw [codechef_scan_eq_fiveStep]
  cases codechefFiveStep p <;> rfl

/-- Witness for C6's amended theorem at the concrete counterexample page. -/
theorem claim_codechef_five_steps_w :
    fetch_codechef_stats "https://www.codechef.com/users/alice" (.page pageCx) =
      match codechefFiveStep pageCx with
      | some n => ⟨.num n, "https://www.codechef.com/users/alice", none⟩
      | none => ⟨.str "N/A", "https://www.codechef.com/users/alice",
          some "CodeChef: Could not find solved problems count (might be private or UI changed)."⟩ :=
  claim_codechef_five_steps.2 "https://www.codechef.com/users/alice" "alice" pageCx rfl

/-- Claim C7, counterexample: a success-status HackerRank page with no
private-profile marker, no `profile not found` text and zero badge elements
yields an error record, not `solved = 0` as the claim states. -/
theorem claim_hackerrank_zero_badges_counterexample :
    fetch_hackerrank_stats "https://www.hackerrank.com/alice" (.page hrEmptyPage) =
      .ok ⟨.str "N/A", "https://www.hackerrank.com/alice",
        some "No badges found on HackerRank profile. (UI might have changed or no badges earned)"⟩ ∧
    SolvedVal.str "N/A" ≠ SolvedVal.num 0 :=
  ⟨rfl, by decide⟩

/-- Claim C7 (amended): on a success-status page the HackerRank fetcher
returns an error record exactly when the page has the private-profile
marker, contains `profile not found` or `page not found` (case-insensitive),
or has zero badge elements across the four known badge class variants;
otherwise `solved` is the (positive) badge count. -/
theorem claim_hackerrank_classification (url u : String) (p : HRPage)
    (h : extract_username url "hackerrank" = .ok (some u)) :
    (fetch_hackerrank_stats url (.page p)).isOk = true ∧
    ∀ r, fetch_hackerrank_stats url (.page p) = .ok r →
      ((r.error ≠ none) ↔ (p.privateMarker = true ∨
        containsSub "profile not found".data (p.html.data.map Char.toLower) = true ∨
        containsSub "page not found".data (p.html.data.map Char.toLower) = true ∨
        p.badgeCount = 0)) ∧
      (r.error = none → r.solved = .num p.badgeCount) := by
  unfold fetch_hackerrank_stats
  rw [h]
  constructor
  · rfl
  · intro r hr
    dsimp only at hr
    injection hr with hr
    by_cases hb : hrBlocked p = true
    · rw [if_pos hb] at hr
      subst hr
      constructor
      · simp only [hrBlocked, Bool.or_eq_true] at hb
        constructor
        · intro _
          rcases hb with (h1 | h2) | h3
          · exact Or.inl h1
          · exact Or.inr (Or.inl h2)
          · exact Or.inr (Or.inr (Or.inl h3))
        · intro _
          simp
      · intro hc
        exact absurd hc (by simp)
    · rw [if_neg hb] at hr
      have hb' : p.privateMarker ≠ true ∧
          containsSub "profile not found".data (p.html.data.map Char.toLower) ≠ true ∧
          containsSub "page not found".data (p.html.data.map Char.toLower) ≠ true := by
        simp only [hrBlocked, Bool.or_eq_true] at hb
        push_neg at hb
        exact ⟨hb.1.1, hb.1.2, hb.2⟩
      by_cases hz : p.badgeCount = 0
      · rw [if_pos hz] at hr
        subst hr
        constructor
        · constructor
          · intro _
            exact Or.inr (Or.inr (Or.inr hz))
          · intro _
            simp
        · intro hc
          exact absurd hc (by simp)
      · rw [if_neg hz] at hr
        subst hr
        constructor
        · constructor
          · intro hc
            exact absurd rfl hc
          · intro hd
            rcases hd with h1 | h2 | h3 | h4
            · exact absurd h1 hb'.1
            · exact absurd h2 hb'.2.1
            · exact absurd h3 hb'.2.2
            · exact absurd h4 hz
        · intro _
          rfl

/-- Witness for C7's amended theorem on a concrete page with three badges. -/
theorem claim_hackerrank_classification_w :
    (fetch_hackerrank_stats "https://www.hackerrank.com/alice"
      (.page ⟨false, "", 3⟩)).isOk = true :=
  (claim_hackerrank_classification "https://www.hackerrank.com/alice" "alice"
    ⟨false, "", 3⟩ rfl).1

/-- Claim C10 (confirmed): whenever a username is extracted, the CodeChef
fetcher directs its request at the canonical
`https://www.codechef.com/users/<username>` URL built from it, yet the `url`
field of the returned record is the original input URL in every branch —
success and all failures — never the canonical URL (unless input and
canonical coincide). -/
theorem claim_codechef_canonical_url (url u : String) (o : CCOutcome)
    (h : extract_username url "codechef" = .ok (some u)) :
    codechef_request url = .ok (some ("https://www.codechef.com/users/" ++ u)) ∧
    (fetch_codechef_stats url o).url = url := by
  constructor
  · unfold codechef_request
    rw [h]
    rfl
  · unfold fetch_codechef_stats
    rw [h]
    cases o with
    | clientError msg => rfl
    | timeout => rfl
    | otherError msg => rfl
    | page p =>
      dsimp only
      cases codechef_scan p <;> rfl

/-- Witness for C10 at a concrete URL whose request target differs from the
input. -/
theorem claim_codechef_canonical_url_w :
    codechef_request "https://codechef.com/users/alice" =
      .ok (some "https://www.codechef.com/users/alice") ∧
    (fetch_codechef_stats "https://codechef.com/users/alice" .timeout).url =
      "https://codechef.com/users/alice" :=
  claim_codechef_canonical_url "https://codechef.com/users/alice" "alice"
    .timeout rfl

theorem gather_ok_keys :
    ∀ (l : List (String × Except String PlatformResult))
      (m : List (String × PlatformResult)),
      gatherExcept l = .ok m → m.map Prod.fst = l.map Prod.fst := by
  intro l
  induction l with
  | nil =>
    intro m h
    injection h with h
    subst h
    rfl
  | cons a rest ih =>
    intro m h
    rcases a with ⟨k, er⟩
    cases er with
    | error e => exact Except.noConfusion h
    | ok r =>
      unfold gatherExcept at h
      cases hg : gatherExcept rest with
      | error e => rw [hg] at h; exact Except.noConfusion h
      | ok m2 =>
        rw [hg] at h
        injection h with h
        subst h
        simp [ih m2 hg]

theorem gather_ok_mem :
    ∀ (l : List (String × Except String PlatformResult))
      (m : List (String × PlatformResult)),
      gatherExcept l = .ok m →
      ∀ k r, (k, r) ∈ m → (k, Except.ok r) ∈ l := by
  intro l
  induction l with
  | nil =>
    intro m h k r hm
    injection h with h
    subst h
    cases hm
  | cons a rest ih =>
    intro m h k r hm
    rcases a with ⟨k1, er⟩
    cases er with
    | error e => exact Except.noConfusion h
    | ok r1 =>
      unfold gatherExcept at h
      cases hg : gatherExcept rest with
      | error e => rw [hg] at h; exact Except.noConfusion h
      | ok m2 =>
        rw [hg] at h
        injection h with h
        subst h
        rcases List.mem_cons.mp hm with he | hm2
        · injection he with he1 he2
          subst he1
          subst he2
          exact List.mem_cons_self _ _
        · exact List.mem_cons_of_mem _ (ih m2 hg k r hm2)

theorem fetchResults_keys (req : StatsRequest) (net : Network) :
    (fetchResults req net).map Prod.fst = keyList req := by
  unfold fetchResults keyList
  cases h1 : truthy req.leetcode <;> cases h2 : truthy req.geeksforgeeks <;>
    cases h3 : truthy req.codechef <;> cases h4 : truthy req.hackerrank <;>
    simp

theorem fillMissing_keys (m : List (String × PlatformResult)) :
    (fillMissing m).map Prod.fst =
      m.map Prod.fst ++
        platformKeys.filter (fun k => !(m.map Prod.fst).contains k) := by
  unfold fillMissing
  have hcomp : (Prod.fst ∘ fun k : String => (k, naPlaceholder)) = id := rfl
  rw [List.map_append, List.map_map, hcomp, List.map_id]

theorem keys_perm (req : StatsRequest) :
    (keyList req ++
      platformKeys.filter (fun k => !(keyList req).contains k)).Perm
      platformKeys := by
  unfold keyList platformKeys
  cases h1 : truthy req.leetcode <;> cases h2 : truthy req.geeksforgeeks <;>
    cases h3 : truthy req.codechef <;> cases h4 : truthy req.hackerrank <;>
    decide

theorem lookup_append_right (l1 l2 : List (String × PlatformResult))
    (k : String) (h : k ∉ l1.map Prod.fst) :
    (l1 ++ l2).lookup k = l2.lookup k := by
  induction l1 with
  | nil => rfl
  | cons a t ih =>
    rcases a with ⟨k1, v1⟩
    simp only [List.map_cons, List.mem_cons, not_or] at h
    have hne : (k == k1) = false := beq_eq_false_iff_ne.mpr h.1
    simp only [List.cons_append, List.lookup, hne]
    exact ih h.2

theorem lookup_const_map (ks : List String) (k : String) (hk : k ∈ ks)
    (v : PlatformResult) :
    (ks.map (fun k2 => (k2, v))).lookup k = some v := by
  induction ks with
  | nil => cases hk
  | cons a t ih =>
    by_cases he : k = a
    · subst he
      simp [List.lookup]
    · have hne : (k == a) = false := beq_eq_false_iff_ne.mpr he
      rcases List.mem_cons.mp hk with rfl | hk2
      · exact absurd rfl he
      · simp only [List.map_cons, List.lookup, hne]
        exact ih hk2

theorem lookup_fillMissing (m : List (String × PlatformResult)) (k : String)
    (hk : k ∈ platformKeys) (hnm : k ∉ m.map Prod.fst) :
    (fillMissing m).lookup k = some naPlaceholder := by
  unfold fillMissing
  rw [lookup_append_right _ _ _ hnm]
  apply lookup_const_map
  simp only [List.mem_filter]
  exact ⟨hk, by simpa using hnm⟩

theorem totalLoop_aux (l : List (String × PlatformResult)) (acc : Nat) :
    l.foldl (fun acc e =>
      if e.1 = "hackerrank" then acc else acc + contribution e.2.solved) acc =
      acc + ((l.filter (fun e => e.1 != "hackerrank")).map
        (fun e => contribution e.2.solved)).sum := by
  induction l generalizing acc with
  | nil => simp
  | cons a t ih =>
    rcases a with ⟨k, v⟩
    by_cases hk : k = "hackerrank"
    · subst hk
      simp [ih, List.filter]
    · have hbe : (k != "hackerrank") = true := by simp [hk]
      simp [ih, List.filter, hk, hbe, Nat.add_assoc]

theorem totalLoop_eq (l : List (String × PlatformResult)) :
    totalLoop l = ((l.filter (fun e => e.1 != "hackerrank")).map
      (fun e => contribution e.2.solved)).sum := by
  unfold totalLoop
  simpa using totalLoop_aux l 0

set_option maxHeartbeats 1000000 in
theorem mem_fetchResults (req : StatsRequest) (net : Network) (k : String)
    (er : Except String PlatformResult) (h : (k, er) ∈ fetchResults req net) :
    (k = "leetcode" ∧ truthy req.leetcode = true ∧
      er = fetch_leetcode_stats (req.leetcode.getD "") net.lc) ∨
    (k = "geeksforgeeks" ∧ truthy req.geeksforgeeks = true ∧
      er = .ok (fetch_geeksforgeeks_stats (req.geeksforgeeks.getD "") net.gfg)) ∨
    (k = "codechef" ∧ truthy req.codechef = true ∧
      er = .ok (fetch_codechef_stats (req.codechef.getD "") net.cc)) ∨
    (k = "hackerrank" ∧ truthy req.hackerrank = true ∧
      er = fetch_hackerrank_stats (req.hackerrank.getD "") net.hr) := by
  unfold fetchResults at h
  generalize fetch_leetcode_stats (req.leetcode.getD "") net.lc = A at h ⊢
  generalize (Except.ok (fetch_geeksforgeeks_stats (req.geeksforgeeks.getD "")
    net.gfg) : Except String PlatformResult) = B at h ⊢
  generalize (Except.ok (fetch_codechef_stats (req.codechef.getD "") net.cc) :
    Except String PlatformResult) = C at h ⊢
  generalize fetch_hackerrank_stats (req.hackerrank.getD "") net.hr = D at h ⊢
  cases h1 : truthy req.leetcode <;> cases h2 : truthy req.geeksforgeeks <;>
    cases h3 : truthy req.codechef <;> cases h4 : truthy req.hackerrank <;>
    rw [h1, h2, h3, h4] at h <;> simp at h <;> tauto

theorem mem_fillMissing (m : List (String × PlatformResult)) (k : String)
    (r : PlatformResult) (h : (k, r) ∈ fillMissing m) :
    (k, r) ∈ m ∨ (k ∈ platformKeys ∧ k ∉ m.map Prod.fst ∧ r = naPlaceholder) := by
  unfold fillMissing at h
  rcases List.mem_append.mp h with h | h
  · exact Or.inl h
  · right
    rcases List.mem_map.mp h with ⟨k2, hk2, he⟩
    rcases List.mem_filter.mp hk2 with ⟨hkp, hcont⟩
    injection he with he1 he2
    subst he1
    subst he2
    exact ⟨hkp, by simpa using hcont, rfl⟩

theorem get_stats_ok (req : StatsRequest) (net : Network) (resp : StatsResponse)
    (h : get_stats req net = .ok resp) :
    ∃ m, gatherExcept (fetchResults req net) = .ok m ∧
      resp.platforms = fillMissing m ∧
      resp.totalSolved = totalLoop (fillMissing m) := by
  unfold get_stats at h
  cases hg : gatherExcept (fetchResults req net) with
  | error e => rw [hg] at h; exact Except.noConfusion h
  | ok m =>
    rw [hg] at h
    injection h with h
    subst h
    exact ⟨m, rfl, rfl, rfl⟩

theorem goodRec_shape {r : PlatformResult} (h : goodRec r) :
    (∃ n, r.solved = .num n) ∨ r.solved = .str "N/A" := by
  rcases h with ⟨n, hs, _⟩ | ⟨hs, _⟩
  · exact Or.inl ⟨n, hs⟩
  · exact Or.inr hs

theorem fetch_mem_goodRec (req : StatsRequest) (net : Network) (k : String)
    (r : PlatformResult)
    (hreq : (k, Except.ok r) ∈ fetchResults req net) : goodRec r := by
  rcases mem_fetchResults req net k (.ok r) hreq with
    ⟨_, _, he⟩ | ⟨_, _, he⟩ | ⟨_, _, he⟩ | ⟨_, _, he⟩
  · exact lc_goodRec _ _ r he.symm
  · injection he with he
    subst he
    exact gfg_goodRec _ _
  · injection he with he
    subst he
    exact cc_goodRec _ _
  · exact hr_goodRec _ _ r he.symm

theorem mem_platforms_shape (req : StatsRequest) (net : Network)
    (resp : StatsResponse) (h : get_stats req net = .ok resp) (k : String)
    (r : PlatformResult) (hm : (k, r) ∈ resp.platforms) :
    (∃ n, r.solved = .num n) ∨ r.solved = .str "N/A" := by
  obtain ⟨m, hg, hps, _⟩ := get_stats_ok req net resp h
  rw [hps] at hm
  rcases mem_fillMissing m k r hm with hmm | ⟨_, _, rfl⟩
  · exact goodRec_shape (fetch_mem_goodRec req net k r
      (gather_ok_mem _ _ hg k r hmm))
  · exact Or.inr rfl

theorem mem_keyList (req : StatsRequest) (k : String) :
    k ∈ keyList req ↔
      ((k = "leetcode" ∧ truthy req.leetcode = true) ∨
       (k = "geeksforgeeks" ∧ truthy req.geeksforgeeks = true) ∨
       (k = "codechef" ∧ truthy req.codechef = true) ∨
       (k = "hackerrank" ∧ truthy req.hackerrank = true)) := by
  unfold keyList
  cases h1 : truthy req.leetcode <;> cases h2 : truthy req.geeksforgeeks <;>
    cases h3 : truthy req.codechef <;> cases h4 : truthy req.hackerrank <;>
    simp

theorem not_mem_keyList (req : StatsRequest) (k : String)
    (hf : truthy (reqUrl req k) = false) : k ∉ keyList req := by
  intro hmem
  rcases (mem_keyList req k).mp hmem with ⟨rfl, ht⟩ | ⟨rfl, ht⟩ | ⟨rfl, ht⟩ | ⟨rfl, ht⟩ <;>
    simp [reqUrl] at hf <;> rw [hf] at ht <;> exact Bool.noConfusion ht

/-- Claim C1 (confirmed): for every response the endpoint produces,
`totalSolved` is the sum of the `solved` values over the entries whose
platform tag is not `hackerrank`, a non-numeric `solved` contributing 0 —
so the `hackerrank` entry is never added, whatever its value. -/
theorem claim_totalSolved_sum (req : StatsRequest) (net : Network)
    (resp : StatsResponse) (h : get_stats req net = .ok resp) :
    resp.totalSolved =
      ((resp.platforms.filter (fun e => e.1 != "hackerrank")).map
        (fun e => specContribution e.2.solved)).sum := by
  obtain ⟨m, hg, hps, ht⟩ := get_stats_ok req net resp h
  rw [ht, ← hps, totalLoop_eq]
  apply congrArg List.sum
  apply List.map_congr_left
  intro e he
  have hmem : (e.1, e.2) ∈ resp.platforms := by
    simpa using (List.mem_filter.mp he).1
  rcases mem_platforms_shape req net resp h e.1 e.2 hmem with ⟨n, hn⟩ | hna
  · rw [hn]
    rfl
  · rw [hna]
    decide

/-- Witness for C1 at the empty request. -/
theorem claim_totalSolved_sum_w :
    respNone.totalSolved =
      ((respNone.platforms.filter (fun e => e.1 != "hackerrank")).map
        (fun e => specContribution e.2.solved)).sum :=
  claim_totalSolved_sum reqNone netTimeouts respNone rfl

/-- Claim C2 (confirmed): every response's platform mapping carries exactly
the four fixed keys; a platform whose URL was absent or empty maps to the
`{"solved": "N/A", "url": ""}` placeholder; and with no URL supplied at all
the total is 0. -/
theorem claim_response_shape (req : StatsRequest) (net : Network)
    (resp : StatsResponse) (h : get_stats req net = .ok resp) :
    (resp.platforms.map Prod.fst).Perm platformKeys ∧
    (∀ k, k ∈ platformKeys → truthy (reqUrl req k) = false →
      resp.platforms.lookup k = some naPlaceholder) ∧
    ((truthy req.leetcode = false ∧ truthy req.geeksforgeeks = false ∧
      truthy req.codechef = false ∧ truthy req.hackerrank = false) →
      resp.totalSolved = 0) := by
  obtain ⟨m, hg, hps, ht⟩ := get_stats_ok req net resp h
  have hkeys : m.map Prod.fst = keyList req := by
    rw [gather_ok_keys _ _ hg, fetchResults_keys]
  refine ⟨?_, ?_, ?_⟩
  · rw [hps, fillMissing_keys, hkeys]
    exact keys_perm req
  · intro k hk hf
    rw [hps]
    apply lookup_fillMissing _ _ hk
    rw [hkeys]
    exact not_mem_keyList req k hf
  · rintro ⟨f1, f2, f3, f4⟩
    have hempty : fetchResults req net = [] := by
      unfold fetchResults
      rw [f1, f2, f3, f4]
      rfl
    rw [hempty] at hg
    injection hg with hg
    subst hg
    rw [ht]
    decide

/-- Witness for C2 at the empty request. -/
theorem claim_response_shape_w :
    (respNone.platforms.map Prod.fst).Perm platformKeys ∧
    respNone.platforms.lookup "leetcode" = some naPlaceholder ∧
    respNone.totalSolved = 0 :=
  ⟨(claim_response_shape reqNone netTimeouts respNone rfl).1,
    (claim_response_shape reqNone netTimeouts respNone rfl).2.1 "leetcode"
      (by decide) rfl,
    (claim_response_shape reqNone netTimeouts respNone rfl).2.2
      ⟨rfl, rfl, rfl, rfl⟩⟩

/-- Claim C5, counterexample: in the response to a request with no URLs,
the `leetcode` entry is the fill-in placeholder, whose `solved` is `"N/A"`
while no `error` field is present — refuting `error` present iff
`solved = "N/A"`. -/
theorem claim_error_iff_counterexample :
    get_stats reqNone netTimeouts = .ok respNone ∧
    ("leetcode", naPlaceholder) ∈ respNone.platforms ∧
    naPlaceholder.solved = .str "N/A" ∧
    naPlaceholder.error = none := by
  refine ⟨rfl, ?_, rfl, rfl⟩
  simp [respNone]

/-- Claim C5 (amended): in every response, an entry produced by a fetcher
(its platform's URL was supplied non-empty) has an `error` exactly when its
`solved` is `"N/A"`; an entry for a platform whose URL was absent or empty
is the placeholder, which has `solved = "N/A"` and no `error`. -/
theorem claim_error_iff_na (req : StatsRequest) (net : Network)
    (resp : StatsResponse) (h : get_stats req net = .ok resp) (k : String)
    (r : PlatformResult) (hm : (k, r) ∈ resp.platforms) :
    (truthy (reqUrl req k) = true → ((r.error ≠ none) ↔ r.solved = .str "N/A")) ∧
    (truthy (reqUrl req k) = false → r = naPlaceholder) := by
  obtain ⟨m, hg, hps, _⟩ := get_stats_ok req net resp h
  have hkeys : m.map Prod.fst = keyList req := by
    rw [gather_ok_keys _ _ hg, fetchResults_keys]
  rw [hps] at hm
  rcases mem_fillMissing m k r hm with hmm | ⟨hkp, hnm, rfl⟩
  · have hfr := gather_ok_mem _ _ hg k r hmm
    have hgood := fetch_mem_goodRec req net k r hfr
    have htr : truthy (reqUrl req k) = true := by
      rcases mem_fetchResults req net k (.ok r) hfr with
        ⟨rfl, ht, _⟩ | ⟨rfl, ht, _⟩ | ⟨rfl, ht, _⟩ | ⟨rfl, ht, _⟩ <;>
        simpa [reqUrl] using ht
    constructor
    · intro _
      rcases hgood with ⟨n, hs, he⟩ | ⟨hs, e, he, _⟩
      · rw [hs, he]
        simp
      · rw [hs, he]
        simp
    · intro hf
      rw [htr] at hf
      exact Bool.noConfusion hf
  · constructor
    · intro htr
      exfalso
      apply hnm
      rw [hkeys]
      apply (mem_keyList req k).mpr
      fin_cases hkp
      · exact Or.inl ⟨rfl, by simpa [reqUrl] using htr⟩
      · exact Or.inr (Or.inl ⟨rfl, by simpa [reqUrl] using htr⟩)
      · exact Or.inr (Or.inr (Or.inl ⟨rfl, by simpa [reqUrl] using htr⟩))
      · exact Or.inr (Or.inr (Or.inr ⟨rfl, by simpa [reqUrl] using htr⟩))
    · intro _
      rfl

/-- Witness for C5's amended theorem: the requested LeetCode entry of a
concrete response satisfies the iff, at a timed-out upstream. -/
theorem claim_error_iff_na_w :
    (lcTimeoutRec.error ≠ none) ↔ lcTimeoutRec.solved = .str "N/A" :=
  (claim_error_iff_na reqLCOnly netTimeouts respLC rfl "leetcode" lcTimeoutRec
    (by simp [respLC])).1 rfl

end BackendApp
